import Mathlib

/-
Verification of the core logic of app.py (Rider POD & Idle Time Analysis):
the idle-period segmentation over per-rider telemetry samples, the POD
report-date selection, and the Cartrack driver-resolution and fuel-efficiency
logic. Numeric spreadsheet values (floats) are modelled as rationals;
timestamps are seconds since midnight (the Time column is parsed with format
%I:%M:%S %p, so every parsed timestamp is a pure time of day); a timestamp
that pandas failed to parse (NaT, from errors=coerce) is modelled as none.
Python code that raises an uncaught exception is modelled as Except.error.
-/

namespace RiderApp

/-! ### Idle section: data model (app.py lines 138-196) -/

/-- work_start = datetime.time(8, 30), in seconds since midnight. -/
def workStart : Nat := 8 * 3600 + 30 * 60

/-- work_end = datetime.time(17, 30), in seconds since midnight. -/
def workEnd : Nat := 17 * 3600 + 30 * 60

/-- One row of a rider telemetry sheet after parsing: Time (none when
pd.to_datetime with errors=coerce produced NaT), Mileage (km), Speed (km/h). -/
structure Sample where
  time : Option Nat
  mileage : ℚ
  speed : ℚ
deriving Repr, DecidableEq

/-- df.Idle = (Mileage (km) == 0), per row. -/
def Sample.isIdle (s : Sample) : Bool := s.mileage == 0

/-- Membership test of a time of day in the working window, as used for the
working subset df_working: work_start <= t and t <= work_end. -/
def inWindow (t : Nat) : Bool := decide (workStart ≤ t) && decide (t ≤ workEnd)

/-- The in-scan boundary test of the idle loop: t < work_start or t > work_end. -/
def outOfWindow (t : Nat) : Bool := decide (t < workStart) || decide (workEnd < t)

/-- One iteration of the idle-period loop (app.py lines 159-173), acting on the
state (idle_periods, current_start). A row whose Time is NaT makes
row.Time.time() raise ValueError, modelled as Except.error. -/
def scanStep (st : List (Nat × Nat) × Option Nat) (s : Sample) :
    Except Unit (List (Nat × Nat) × Option Nat) :=
  match s.time with
  | none => Except.error ()
  | some t =>
    if outOfWindow t = true then
      match st.2 with
      | some c => Except.ok (st.1 ++ [(c, t)], none)
      | none => Except.ok (st.1, none)
    else if s.isIdle = true then
      match st.2 with
      | none => Except.ok (st.1, some t)
      | some c => Except.ok (st.1, some c)
    else
      match st.2 with
      | some c => Except.ok (st.1 ++ [(c, t)], none)
      | none => Except.ok (st.1, none)

/-- df.Time.iloc[-1]: the timestamp of the last row. The default 0 is never
reached where this is used (the trailing flush runs only after the whole scan
succeeded, hence on a nonempty list of parsed rows). -/
def lastTime (samples : List Sample) : Nat :=
  ((samples.getLast?).bind Sample.time).getD 0

/-- The full idle-period detection (app.py lines 156-176): the scan over all
rows followed by the trailing flush, which closes a still-open run at the last
row's timestamp but records it only if its start lies in the working window. -/
def idlePeriods (samples : List Sample) : Except Unit (List (Nat × Nat)) := do
  let st ← List.foldlM scanStep ([], none) samples
  match st.2 with
  | some c =>
    if inWindow c = true then
      pure (st.1 ++ [(c, lastTime samples)])
    else
      pure st.1
  | none => pure st.1

/-- The parsed timestamps of a sample list, in order. -/
def sampleTimes (samples : List Sample) : List Nat :=
  samples.filterMap Sample.time

/-- Modelled from the spec: the idle segmentation as section 4.2 words it, for
comparison with idlePeriods. A single scan maintaining an optional open-run
start: an out-of-window sample closes any open run at its own timestamp and
never opens one; an in-window idle sample opens a run at its timestamp if none
is open; an in-window moving sample closes any open run at its timestamp. -/
def specScanAux : List Sample → Option Nat → List (Nat × Nat) × Option Nat
  | [], cur => ([], cur)
  | s :: rest, cur =>
    let t := s.time.getD 0
    if outOfWindow t = true then
      match cur with
      | some c => ((c, t) :: (specScanAux rest none).1, (specScanAux rest none).2)
      | none => specScanAux rest none
    else if s.isIdle = true then
      match cur with
      | none => specScanAux rest (some t)
      | some c => specScanAux rest (some c)
    else
      match cur with
      | some c => ((c, t) :: (specScanAux rest none).1, (specScanAux rest none).2)
      | none => specScanAux rest none

/-- Modelled from the spec: after the scan, a still-open run is closed at the
last sample's timestamp but recorded only if its start time of day lies within
the working window. -/
def specIdlePeriods (samples : List Sample) : List (Nat × Nat) :=
  match specScanAux samples none with
  | (ps, some c) => if inWindow c = true then ps ++ [(c, lastTime samples)] else ps
  | (ps, none) => ps

/-- df_working: the rows whose time of day lies in the working window. A NaT
time compares false against both bounds, so such rows are excluded. -/
def workingSamples (samples : List Sample) : List Sample :=
  samples.filter (fun s =>
    match s.time with
    | some t => inWindow t
    | none => false)

/-- total_mileage = df_working.Mileage.sum(). -/
def totalMileage (samples : List Sample) : ℚ :=
  ((workingSamples samples).map Sample.mileage).sum

/-- max_speed = df_working.Speed.max(). The 0 of the empty case is never used:
the branch that reads max_speed runs only when total_mileage is nonzero, which
forces df_working to be nonempty. -/
def maxSpeed (samples : List Sample) : ℚ :=
  match (workingSamples samples).map Sample.speed with
  | [] => 0
  | v :: vs => vs.foldl max v

/-- Duration of an idle period in minutes: (end - start).total_seconds() / 60. -/
def durationMinutes (p : Nat × Nat) : ℚ :=
  ((p.2 : ℚ) - (p.1 : ℚ)) / 60

/-- One row of the idle summary table (app.py lines 186-196). -/
structure RiderSummary where
  totalIdleMins : ℚ
  over15Mins : ℚ
  numOver15 : Nat
  mileage : ℚ
  maxSpd : ℚ
  status : String
deriving Repr, DecidableEq

/-- Processing of one rider file (app.py lines 138-196): the total_mileage == 0
short circuit, otherwise the idle scan and the derived aggregates. -/
def processRider (samples : List Sample) : Except Unit RiderSummary :=
  let tm := totalMileage samples
  if tm = 0 then
    Except.ok ⟨0, 0, 0, tm, 0, "Not working for the day"⟩
  else do
    let ps ← idlePeriods samples
    let ds := ps.map durationMinutes
    let over := ds.filter (fun d => decide ((15 : ℚ) < d))
    Except.ok ⟨ds.sum, over.sum, over.length, tm, maxSpeed samples, "Working for the day"⟩

/-! ### POD section: report date (app.py lines 36-49) -/

/-- pandas Series.mode()[0]: among the values that occur most often, the
smallest (mode returns its result sorted ascending and [0] takes the first).
none on an empty list, where [0] raises KeyError. -/
def modeFirst (l : List Nat) : Option Nat :=
  l.dedup.foldl
    (fun acc v =>
      match acc with
      | none => some v
      | some b =>
        if l.count b < l.count v ∨ (l.count v = l.count b ∧ v < b) then some v
        else some b)
    none

/-- The POD report date used for output naming (app.py lines 36-49). hasCols
says whether the four required columns were all found; dates are the parsed
Delivery Date values (none = NaT from errors=coerce, dropped by mode()).
mode()[0] on an empty mode result raises KeyError, modelled as Except.error. -/
def podDeliveryDate (hasCols : Bool) (dates : List (Option Nat)) :
    Except Unit String :=
  if hasCols then
    match modeFirst (dates.filterMap id) with
    | some d => Except.ok (toString d)
    | none => Except.error ()
  else
    Except.ok "unknown_date"

/-! ### Cartrack section: driver resolution (app.py lines 306-423) -/

/-- Whitespace for the model of str.strip(). -/
def isSpaceChar (c : Char) : Bool :=
  c == ' ' || c == '\t' || c == '\n' || c == '\r'

/-- Python str.strip(). -/
def strTrim (s : String) : String :=
  ⟨(((s.toList.dropWhile isSpaceChar).reverse.dropWhile isSpaceChar).reverse)⟩

/-- Case-sensitive substring containment on character lists. -/
def containsChars : List Char → List Char → Bool
  | pat, [] => pat.isEmpty
  | pat, c :: rest => pat.isPrefixOf (c :: rest) || containsChars pat rest

/-- pandas str.contains(pat) for a plain-text pattern: substring containment. -/
def containsSub (s pat : String) : Bool :=
  containsChars pat.toList s.toList

/-- re.search(pat, s, re.IGNORECASE) for a plain-text pattern: substring
containment after lowercasing both sides. -/
def containsCI (s pat : String) : Bool :=
  containsChars (pat.toList.map Char.toLower) (s.toList.map Char.toLower)

/-- The hard-coded override_map of app.py lines 374-377. -/
def override_map : List (String × String) :=
  [("GBB933E", "Abdul Rahman"), ("GBB933Z", "Mohd"), ("GBC8305D", "Sugathan"),
   ("GBC9338C", "Toh"), ("GX9339E", "Masari"), ("GY933T", "Mohd Hairul"),
   ("GBB933X", "Unknown")]

/-- assign_driver (app.py lines 379-397). The row it receives is a pandas
Series read by label with row.get, modelled as an association list from column
labels to string values; a label that is absent yields the get default. -/
def assign_driver (row : List (String × String)) : String :=
  let td := (row.lookup "TripDriver").getD ""
  if strTrim td ≠ "" then td
  else
    let reg := (row.lookup "Registration").getD ""
    match override_map.lookup reg with
    | some d => d
    | none =>
      let loc := (row.lookup "End Location").getD ""
      if containsCI loc "Punggol" || containsCI loc "Hougang" then "Abdul Rahman"
      else if containsCI loc "Woodlands" || containsCI loc "Yishun"
          || containsCI loc "Jurong East" then "Sugathan"
      else if containsCI loc "Changi South" then "Mohd"
      else if containsCI loc "Pasir Panjang" then "Toh"
      else if containsCI loc "Kallang" && !containsCI loc "Pasir Panjang" then "Masari"
      else "Unknown"

/-- The aggregation lambda of reg_info (app.py lines 399-405): the first value
that is a nonblank string, else the empty string. -/
def firstNonEmpty (xs : List String) : String :=
  (xs.find? (fun v => strTrim v ≠ "")).getD ""

/-- The row that reg_info.apply hands to assign_driver for one registration:
its labels are Registration, TripDriver and EndLocation (the agg keyword
names). No label "End Location" is present. -/
def regInfoRow (reg td el : String) : List (String × String) :=
  [("Registration", reg), ("TripDriver", td), ("EndLocation", el)]

/-- End-to-end driver resolution for one registration, from the per-column
value lists of its df_context rows (app.py lines 399-406). -/
def pipelineDriver (reg : String) (tripDrivers endLocs : List String) : String :=
  assign_driver (regInfoRow reg (firstNonEmpty tripDrivers) (firstNonEmpty endLocs))

/-! ### Cartrack section: trip metadata and fuel efficiency -/

/-- One metadata row of the trip report (first 15 rows, header=None): column 0
as a string, column 1 as an optional cell (none = missing/NaN). -/
structure MetaRow where
  col0 : String
  col1 : Option String
deriving Repr, DecidableEq

/-- str() of a cell: a NaN cell prints as "nan". -/
def strOfCell (c : Option String) : String :=
  match c with
  | some s => s
  | none => "nan"

/-- app.py lines 311-316: the first metadata row whose column 0 contains
"Registration" gives str(cell).strip(); if no row matches, reg_row.iloc[0, 1]
raises IndexError, the bare except swallows it, and registration stays None. -/
def extractRegistration (meta : List MetaRow) : Option String :=
  match meta.find? (fun r => containsSub r.col0 "Registration") with
  | some r => some (strTrim (strOfCell r.col1))
  | none => none

/-- app.py lines 308-324: metadata scan, then location of the header row whose
column 0 equals "Driver". Only a missing Driver header raises (IndexError on
index[0], caught by the section's outer handler); a missing Registration label
does not. Returns the registration value broadcast onto the trip rows. -/
def parseTripReport (meta : List MetaRow) (col0s : List String) :
    Except Unit (Option String) :=
  let registration := extractRegistration meta
  if col0s.any (fun c => c == "Driver") then Except.ok registration
  else Except.error ()

/-- Per-driver totals after the groupby sums (app.py lines 415-419). -/
structure DriverAgg where
  speeding : ℚ
  mileage : ℚ
  fuel : ℚ
deriving Repr, DecidableEq

/-- One row of the final fleet summary (app.py lines 415-423). -/
structure DriverSummary where
  driver : String
  totalSpeeding : ℚ
  totalMileage : ℚ
  totalFuel : ℚ
  fuelEfficiency : Option ℚ
deriving Repr, DecidableEq

/-- Construction of a fleet-summary row, with the Fuel_Efficiency lambda of
app.py lines 420-423: mileage / fuel if fuel > 0 else None. -/
def mkDriverSummary (driver : String) (a : DriverAgg) : DriverSummary :=
  { driver := driver
    totalSpeeding := a.speeding
    totalMileage := a.mileage
    totalFuel := a.fuel
    fuelEfficiency := if a.fuel > 0 then some (a.mileage / a.fuel) else none }

/-! ### Concrete inputs used by witnesses and counterexamples -/

/-- C1 witness input: an in-window idle sample then an out-of-window sample. -/
def c1Samples : List Sample :=
  [⟨some 30700, 0, 0⟩, ⟨some 64000, 0, 0⟩]

/-- C2 witness input: an unparseable row plus an in-window zero-mileage row;
the out-of-window mileage 7 does not count toward the working subset. -/
def c2Samples : List Sample :=
  [⟨none, 7, 9⟩, ⟨some 40000, 0, 50⟩]

/-- C4 counterexample input: a moving in-window row, an idle run closed by an
out-of-window row, then two in-window rows whose timestamps run backwards. -/
def c4Samples : List Sample :=
  [⟨some 40000, 1, 0⟩, ⟨some 61200, 0, 0⟩, ⟨some 64800, 1, 0⟩,
   ⟨some 50000, 0, 0⟩, ⟨some 45000, 1, 0⟩]

/-- C4 witness input: two chronological in-window rows, idle then moving. -/
def c4GoodSamples : List Sample :=
  [⟨some 32000, 0, 1⟩, ⟨some 33000, 2, 3⟩]

/-- The C5 scenario of the spec: samples (08:00, 0, 0), (08:35, 0, 0),
(08:50, 5, 20), (09:00, 5, 0) as seconds since midnight. -/
def c5Samples : List Sample :=
  [⟨some 28800, 0, 0⟩, ⟨some 30900, 0, 0⟩, ⟨some 31800, 5, 20⟩,
   ⟨some 32400, 5, 0⟩]

/-- C7 failing input: a row whose Time failed to parse, in a file whose
working-subset mileage is nonzero so that interval detection runs. -/
def c7Samples : List Sample :=
  [⟨none, 0, 0⟩, ⟨some 40000, 5, 10⟩]

/-- C8 inputs: metadata rows that never contain the label "Registration", and
a column-0 list that does contain the "Driver" header token. -/
def c8Meta : List MetaRow :=
  [⟨"Summary Trip Report", some "x"⟩, ⟨"Period", some "2024-01-01"⟩]

/-! ### Helper lemmas -/

theorem ok_bind {α β : Type} (a : α) (f : α → Except Unit β) :
    (Except.ok a : Except Unit α) >>= f = f a := rfl

theorem error_bind {α β : Type} (e : Unit) (f : α → Except Unit β) :
    (Except.error e : Except Unit α) >>= f = Except.error e := rfl

theorem pure_eq_ok {α : Type} (a : α) : (pure a : Except Unit α) = Except.ok a := rfl

theorem inWindow_of_not_out {t : Nat} (h : outOfWindow t = false) : inWindow t = true := by
  simp only [outOfWindow, Bool.or_eq_false_iff, decide_eq_false_iff_not, not_lt] at h
  simp only [inWindow, Bool.and_eq_true, decide_eq_true_eq]
  omega

theorem foldScan_append :
    ∀ (samples : List Sample) (acc : List (Nat × Nat)) (cur : Option Nat),
      (∀ s ∈ samples, (Sample.time s).isSome = true) →
      List.foldlM scanStep (acc, cur) samples
        = Except.ok (acc ++ (specScanAux samples cur).1, (specScanAux samples cur).2) := by
  intro samples
  induction samples with
  | nil => intro acc cur _; simp [specScanAux, List.foldlM, pure_eq_ok]
  | cons s rest ih =>
    intro acc cur h
    have hs : (Sample.time s).isSome = true := h s (List.mem_cons_self s rest)
    have hrest : ∀ x ∈ rest, (Sample.time x).isSome = true :=
      fun x hx => h x (List.mem_cons_of_mem s hx)
    obtain ⟨t, hts⟩ := Option.isSome_iff_exists.mp hs
    rw [List.foldlM_cons]
    by_cases hout : outOfWindow t = true
    · cases cur with
      | some c =>
        have hstep : scanStep (acc, some c) s = Except.ok (acc ++ [(c, t)], none) := by
          simp [scanStep, hts, hout]
        have hspec : specScanAux (s :: rest) (some c)
            = ((c, t) :: (specScanAux rest none).1, (specScanAux rest none).2) := by
          simp [specScanAux, hts, hout]
        rw [hstep, ok_bind, ih _ _ hrest, hspec]
        simp
      | none =>
        have hstep : scanStep (acc, none) s = Except.ok (acc, none) := by
          simp [scanStep, hts, hout]
        have hspec : specScanAux (s :: rest) none = specScanAux rest none := by
          simp [specScanAux, hts, hout]
        rw [hstep, ok_bind, ih _ _ hrest, hspec]
    · simp only [Bool.not_eq_true] at hout
      by_cases hidle : s.isIdle = true
      · cases cur with
        | some c =>
          have hstep : scanStep (acc, some c) s = Except.ok (acc, some c) := by
            simp [scanStep, hts, hout, hidle]
          have hspec : specScanAux (s :: rest) (some c) = specScanAux rest (some c) := by
            simp [specScanAux, hts, hout, hidle]
          rw [hstep, ok_bind, ih _ _ hrest, hspec]
        | none =>
          have hstep : scanStep (acc, none) s = Except.ok (acc, some t) := by
            simp [scanStep, hts, hout, hidle]
          have hspec : specScanAux (s :: rest) none = specScanAux rest (some t) := by
            simp [specScanAux, hts, hout, hidle]
          rw [hstep, ok_bind, ih _ _ hrest, hspec]
      · simp only [Bool.not_eq_true] at hidle
        cases cur with
        | some c =>
          have hstep : scanStep (acc, some c) s = Except.ok (acc ++ [(c, t)], none) := by
            simp [scanStep, hts, hout, hidle]
          have hspec : specScanAux (s :: rest) (some c)
              = ((c, t) :: (specScanAux rest none).1, (specScanAux rest none).2) := by
            simp [specScanAux, hts, hout, hidle]
          rw [hstep, ok_bind, ih _ _ hrest, hspec]
          simp
        | none =>
          have hstep : scanStep (acc, none) s = Except.ok (acc, none) := by
            simp [scanStep, hts, hout, hidle]
          have hspec : specScanAux (s :: rest) none = specScanAux rest none := by
            simp [specScanAux, hts, hout, hidle]
          rw [hstep, ok_bind, ih _ _ hrest, hspec]

theorem idlePeriods_eq_spec (samples : List Sample)
    (h : ∀ s ∈ samples, (Sample.time s).isSome = true) :
    idlePeriods samples = Except.ok (specIdlePeriods samples) := by
  have hfold := foldScan_append samples [] none h
  rcases hsc : specScanAux samples none with ⟨ps, fin⟩
  rw [hsc] at hfold
  unfold idlePeriods specIdlePeriods
  rw [hfold, ok_bind, hsc]
  cases fin with
  | none => simp [pure_eq_ok]
  | some c =>
    by_cases hc : inWindow c = true
    · simp [hc, pure_eq_ok]
    · simp only [Bool.not_eq_true] at hc
      simp [hc, pure_eq_ok]

theorem foldScan_ok_parsed :
    ∀ (samples : List Sample) (st : List (Nat × Nat) × Option Nat)
      (res : List (Nat × Nat) × Option Nat),
      List.foldlM scanStep st samples = Except.ok res →
      ∀ s ∈ samples, (Sample.time s).isSome = true := by
  intro samples
  induction samples with
  | nil => intro st res _ s hs; simp at hs
  | cons a rest ih =>
    intro st res hfold s hs
    rw [List.foldlM_cons] at hfold
    cases hstep : scanStep st a with
    | error e =>
      rw [hstep, error_bind] at hfold
      simp at hfold
    | ok st' =>
      rw [hstep, ok_bind] at hfold
      rcases List.mem_cons.mp hs with h1 | h2
      · subst h1
        cases hta : s.time with
        | none =>
          rw [show scanStep st s = Except.error () from by simp [scanStep, hta]] at hstep
          simp at hstep
        | some t => simp [hta]
      · exact ih st' res hfold s h2

theorem idlePeriods_ok_parsed {samples : List Sample} {ps : List (Nat × Nat)}
    (h : idlePeriods samples = Except.ok ps) :
    ∀ s ∈ samples, (Sample.time s).isSome = true := by
  unfold idlePeriods at h
  cases hfold : List.foldlM scanStep ([], none) samples with
  | error e =>
    rw [hfold, error_bind] at h
    simp at h
  | ok st => exact foldScan_ok_parsed samples _ st hfold

theorem lastTime_eq :
    ∀ (samples : List Sample),
      (∀ s ∈ samples, (Sample.time s).isSome = true) →
      lastTime samples = (sampleTimes samples).getLast?.getD 0 := by
  intro samples
  induction samples with
  | nil => intro _; rfl
  | cons a rest ih =>
    intro h
    have ha := h a (List.mem_cons_self a rest)
    obtain ⟨t, hta⟩ := Option.isSome_iff_exists.mp ha
    have hrest : ∀ x ∈ rest, (Sample.time x).isSome = true :=
      fun x hx => h x (List.mem_cons_of_mem a hx)
    cases rest with
    | nil => simp [lastTime, sampleTimes, hta]
    | cons b rs =>
      have hb := hrest b (List.mem_cons_self b rs)
      obtain ⟨tb, htb⟩ := Option.isSome_iff_exists.mp hb
      have h1 : lastTime (a :: b :: rs) = lastTime (b :: rs) := by
        simp [lastTime, List.getLast?_cons_cons]
      have h2 : sampleTimes (a :: b :: rs) = t :: sampleTimes (b :: rs) := by
        simp [sampleTimes, hta]
      have h3 : sampleTimes (b :: rs) = tb :: sampleTimes rs := by
        simp [sampleTimes, htb]
      rw [h1, ih hrest, h2, h3, List.getLast?_cons_cons]

theorem mem_le_getLastD :
    ∀ (l : List Nat), List.Sorted (· ≤ ·) l → ∀ x ∈ l, x ≤ l.getLast?.getD 0 := by
  intro l
  induction l with
  | nil => intro _ x hx; simp at hx
  | cons a l2 ih =>
    intro hs x hx
    obtain ⟨ha, hl⟩ := List.sorted_cons.mp hs
    cases l2 with
    | nil =>
      rcases List.mem_singleton.mp hx with rfl
      simp
    | cons b l3 =>
      rw [List.getLast?_cons_cons]
      rcases List.mem_cons.mp hx with rfl | h2
      · exact le_trans (ha b (List.mem_cons_self b l3)) (ih hl b (List.mem_cons_self b l3))
      · exact ih hl x h2

theorem specScanAux_inv :
    ∀ (samples : List Sample) (cur : Option Nat) (lo : Nat),
      (∀ s ∈ samples, (Sample.time s).isSome = true) →
      List.Sorted (· ≤ ·) (lo :: sampleTimes samples) →
      (cur = none ∨ (cur = some lo ∧ inWindow lo = true)) →
      (∀ p ∈ (specScanAux samples cur).1,
          inWindow p.1 = true ∧ lo ≤ p.1 ∧ p.1 ≤ p.2 ∧ p.2 ∈ sampleTimes samples)
        ∧ List.Pairwise (fun a b : Nat × Nat => a.2 ≤ b.1) (specScanAux samples cur).1
        ∧ (∀ c', (specScanAux samples cur).2 = some c' →
            inWindow c' = true ∧ (cur = some c' ∨ c' ∈ sampleTimes samples)
              ∧ ∀ p ∈ (specScanAux samples cur).1, p.2 ≤ c') := by
  intro samples
  induction samples with
  | nil =>
    intro cur lo hparse hsort hcur
    refine ⟨by simp [specScanAux], by simp [specScanAux], ?_⟩
    intro c' hc'
    simp only [specScanAux] at hc' ⊢
    rcases hcur with rfl | ⟨rfl, hwin⟩
    · cases hc'
    · cases hc'
      exact ⟨hwin, Or.inl rfl, by simp⟩
  | cons s rest ih =>
    intro cur lo hparse hsort hcur
    have hs := hparse s (List.mem_cons_self s rest)
    obtain ⟨t, hts⟩ := Option.isSome_iff_exists.mp hs
    have hrest : ∀ x ∈ rest, (Sample.time x).isSome = true :=
      fun x hx => hparse x (List.mem_cons_of_mem s hx)
    have htimes : sampleTimes (s :: rest) = t :: sampleTimes rest := by
      simp [sampleTimes, hts]
    rw [htimes] at hsort ⊢
    obtain ⟨hlo, hsort1⟩ := List.sorted_cons.mp hsort
    obtain ⟨hts_le, hsort2⟩ := List.sorted_cons.mp hsort1
    have hlot : lo ≤ t := hlo t (List.mem_cons_self _ _)
    by_cases hout : outOfWindow t = true
    · rcases hcur with rfl | ⟨rfl, hwin⟩
      · have heq : specScanAux (s :: rest) none = specScanAux rest none := by
          simp [specScanAux, hts, hout]
        rw [heq]
        obtain ⟨ih1, ih2, ih3⟩ := ih none t hrest hsort1 (Or.inl rfl)
        refine ⟨?_, ih2, ?_⟩
        · intro p hp
          obtain ⟨hw, hlp, hpp, hmem⟩ := ih1 p hp
          exact ⟨hw, le_trans hlot hlp, hpp, List.mem_cons_of_mem _ hmem⟩
        · intro c' hc'
          obtain ⟨hw, hdis, hends⟩ := ih3 c' hc'
          rcases hdis with h | h
          · cases h
          · exact ⟨hw, Or.inr (List.mem_cons_of_mem _ h), hends⟩
      · have heq : specScanAux (s :: rest) (some lo)
            = ((lo, t) :: (specScanAux rest none).1, (specScanAux rest none).2) := by
          simp [specScanAux, hts, hout]
        rw [heq]
        obtain ⟨ih1, ih2, ih3⟩ := ih none t hrest hsort1 (Or.inl rfl)
        refine ⟨?_, ?_, ?_⟩
        · intro p hp
          rcases List.mem_cons.mp hp with rfl | hp2
          · exact ⟨hwin, le_refl lo, hlot, List.mem_cons_self _ _⟩
          · obtain ⟨hw, hlp, hpp, hmem⟩ := ih1 p hp2
            exact ⟨hw, le_trans hlot hlp, hpp, List.mem_cons_of_mem _ hmem⟩
        · refine List.pairwise_cons.mpr ⟨?_, ih2⟩
          intro p hp
          exact (ih1 p hp).2.1
        · intro c' hc'
          simp only at hc'
          obtain ⟨hw, hdis, hends⟩ := ih3 c' hc'
          rcases hdis with h | h
          · cases h
          · refine ⟨hw, Or.inr (List.mem_cons_of_mem _ h), ?_⟩
            intro p hp
            rcases List.mem_cons.mp hp with rfl | hp2
            · exact hts_le c' h
            · exact hends p hp2
    · simp only [Bool.not_eq_true] at hout
      have hwt : inWindow t = true := inWindow_of_not_out hout
      by_cases hidle : s.isIdle = true
      · rcases hcur with rfl | ⟨rfl, hwin⟩
        · have heq : specScanAux (s :: rest) none = specScanAux rest (some t) := by
            simp [specScanAux, hts, hout, hidle]
          rw [heq]
          obtain ⟨ih1, ih2, ih3⟩ := ih (some t) t hrest hsort1 (Or.inr ⟨rfl, hwt⟩)
          refine ⟨?_, ih2, ?_⟩
          · intro p hp
            obtain ⟨hw, hlp, hpp, hmem⟩ := ih1 p hp
            exact ⟨hw, le_trans hlot hlp, hpp, List.mem_cons_of_mem _ hmem⟩
          · intro c' hc'
            obtain ⟨hw, hdis, hends⟩ := ih3 c' hc'
            rcases hdis with h | h
            · cases h
              exact ⟨hw, Or.inr (List.mem_cons_self _ _), hends⟩
            · exact ⟨hw, Or.inr (List.mem_cons_of_mem _ h), hends⟩
        · have heq : specScanAux (s :: rest) (some lo) = specScanAux rest (some lo) := by
            simp [specScanAux, hts, hout, hidle]
          rw [heq]
          have hsortlo : List.Sorted (· ≤ ·) (lo :: sampleTimes rest) :=
            List.sorted_cons.mpr
              ⟨fun b hb => hlo b (List.mem_cons_of_mem _ hb), hsort2⟩
          obtain ⟨ih1, ih2, ih3⟩ := ih (some lo) lo hrest hsortlo (Or.inr ⟨rfl, hwin⟩)
          refine ⟨?_, ih2, ?_⟩
          · intro p hp
            obtain ⟨hw, hlp, hpp, hmem⟩ := ih1 p hp
            exact ⟨hw, hlp, hpp, List.mem_cons_of_mem _ hmem⟩
          · intro c' hc'
            obtain ⟨hw, hdis, hends⟩ := ih3 c' hc'
            rcases hdis with h | h
            · exact ⟨hw, Or.inl h, hends⟩
            · exact ⟨hw, Or.inr (List.mem_cons_of_mem _ h), hends⟩
      · simp only [Bool.not_eq_true] at hidle
        rcases hcur with rfl | ⟨rfl, hwin⟩
        · have heq : specScanAux (s :: rest) none = specScanAux rest none := by
            simp [specScanAux, hts, hout, hidle]
          rw [heq]
          obtain ⟨ih1, ih2, ih3⟩ := ih none t hrest hsort1 (Or.inl rfl)
          refine ⟨?_, ih2, ?_⟩
          · intro p hp
            obtain ⟨hw, hlp, hpp, hmem⟩ := ih1 p hp
            exact ⟨hw, le_trans hlot hlp, hpp, List.mem_cons_of_mem _ hmem⟩
          · intro c' hc'
            obtain ⟨hw, hdis, hends⟩ := ih3 c' hc'
            rcases hdis with h | h
            · cases h
            · exact ⟨hw, Or.inr (List.mem_cons_of_mem _ h), hends⟩
        · have heq : specScanAux (s :: rest) (some lo)
              = ((lo, t) :: (specScanAux rest none).1, (specScanAux rest none).2) := by
            simp [specScanAux, hts, hout, hidle]
          rw [heq]
          obtain ⟨ih1, ih2, ih3⟩ := ih none t hrest hsort1 (Or.inl rfl)
          refine ⟨?_, ?_, ?_⟩
          · intro p hp
            rcases List.mem_cons.mp hp with rfl | hp2
            · exact ⟨hwin, le_refl lo, hlot, List.mem_cons_self _ _⟩
            · obtain ⟨hw, hlp, hpp, hmem⟩ := ih1 p hp2
              exact ⟨hw, le_trans hlot hlp, hpp, List.mem_cons_of_mem _ hmem⟩
          · refine List.pairwise_cons.mpr ⟨?_, ih2⟩
            intro p hp
            exact (ih1 p hp).2.1
          · intro c' hc'
            simp only at hc'
            obtain ⟨hw, hdis, hends⟩ := ih3 c' hc'
            rcases hdis with h | h
            · cases h
            · refine ⟨hw, Or.inr (List.mem_cons_of_mem _ h), ?_⟩
              intro p hp
              rcases List.mem_cons.mp hp with rfl | hp2
              · exact hts_le c' h
              · exact hends p hp2

/-! ### Claim theorems -/

/-- C1: the idle segmenter performs a single linear scan over the samples in
original order maintaining an optional open-run start; an out-of-window sample
closes any open run at its own timestamp and never opens one; an in-window
idle sample opens a run at its timestamp if none is open; an in-window moving
sample closes any open run at its timestamp; and after the scan a still-open
run is closed at the last sample's timestamp but recorded only if its start
time of day lies within the working window. Stated as: on every sample list
whose timestamps all parsed, the code's scan (idlePeriods) returns exactly the
intervals of the spec-worded recursion (specIdlePeriods). -/
theorem C1_idle_scan_refines_spec (samples : List Sample)
    (h : ∀ s ∈ samples, (Sample.time s).isSome = true) :
    idlePeriods samples = Except.ok (specIdlePeriods samples) :=
  idlePeriods_eq_spec samples h

theorem C1_idle_scan_refines_spec_witness :
    idlePeriods c1Samples = Except.ok (specIdlePeriods c1Samples) :=
  C1_idle_scan_refines_spec c1Samples (by decide)

/-- C2: whenever the mileage sum over the in-window samples is zero, the
segmenter short-circuits: the result is status "Not working for the day" with
all aggregates zero, for every sample list, regardless of raw content (no
error is possible, so interval detection never runs). -/
theorem C2_zero_mileage_short_circuit (samples : List Sample)
    (h : totalMileage samples = 0) :
    processRider samples = Except.ok ⟨0, 0, 0, 0, 0, "Not working for the day"⟩ := by
  simp [processRider, h]

theorem C2_zero_mileage_short_circuit_witness :
    totalMileage c2Samples = 0
      ∧ processRider c2Samples = Except.ok ⟨0, 0, 0, 0, 0, "Not working for the day"⟩ :=
  ⟨by with_unfolding_all rfl,
   C2_zero_mileage_short_circuit c2Samples (by with_unfolding_all rfl)⟩

/-- C3: the claim's scenario (registration "ABC123", end location "Hougang
Ave", no driver field, no override entry) resolves to "Unknown" in the code,
not to the "Hougang" rule driver: assign_driver reads the label "End Location"
but the aggregated reg_info row names that column EndLocation, so the location
rules always see the empty string. The second conjunct shows the rule list
itself would have produced "Abdul Rahman" had the label matched. -/
theorem C3_end_location_rules_unreachable :
    pipelineDriver "ABC123" [""] ["Hougang Ave"] = "Unknown"
      ∧ assign_driver [("Registration", "ABC123"), ("TripDriver", ""),
          ("End Location", "Hougang Ave")] = "Abdul Rahman" :=
  ⟨rfl, rfl⟩

/-- C4 counterexample: on c4Samples the recorded intervals are
(61200, 64800) and (50000, 45000); the first ends at 18:00, outside the
working window (so it neither lies fully inside the window nor is clipped to
it), and the second has start > end (the sheet order is trusted even when
timestamps run backwards). -/
theorem C4_counterexample_escapes_window :
    idlePeriods c4Samples = Except.ok [(61200, 64800), (50000, 45000)]
      ∧ inWindow 64800 = false
      ∧ ¬ ((50000 : Nat) ≤ 45000) :=
  ⟨rfl, rfl, by decide⟩

/-- C4 amended: when the parsed timestamps are in nondecreasing order, the
recorded intervals are pairwise non-overlapping (each one ends no later than
the next begins), each satisfies start <= end, and each interval's start time
of day lies within the working window; an interval closed by an out-of-window
sample may still end outside the window. -/
theorem C4_intervals_invariants (samples : List Sample) (ps : List (Nat × Nat))
    (hsorted : List.Sorted (· ≤ ·) (sampleTimes samples))
    (hok : idlePeriods samples = Except.ok ps) :
    List.Pairwise (fun a b : Nat × Nat => a.2 ≤ b.1) ps
      ∧ ∀ p ∈ ps, p.1 ≤ p.2 ∧ inWindow p.1 = true := by
  have hparse := idlePeriods_ok_parsed hok
  have heq := idlePeriods_eq_spec samples hparse
  rw [heq] at hok
  injection hok with hok
  subst hok
  have hsort0 : List.Sorted (· ≤ ·) (0 :: sampleTimes samples) :=
    List.sorted_cons.mpr ⟨fun b _ => Nat.zero_le b, hsorted⟩
  obtain ⟨i1, i2, i3⟩ := specScanAux_inv samples none 0 hparse hsort0 (Or.inl rfl)
  rcases hsc : specScanAux samples none with ⟨l, fin⟩
  rw [hsc] at i1 i2 i3
  cases fin with
  | none =>
    have hval : specIdlePeriods samples = l := by
      unfold specIdlePeriods
      rw [hsc]
    rw [hval]
    exact ⟨i2, fun p hp => ⟨(i1 p hp).2.2.1, (i1 p hp).1⟩⟩
  | some c =>
    obtain ⟨hwc, hdis, hends⟩ := i3 c rfl
    have hcm : c ∈ sampleTimes samples := by
      rcases hdis with h | h
      · cases h
      · exact h
    have hclast : c ≤ lastTime samples := by
      rw [lastTime_eq samples hparse]
      exact mem_le_getLastD _ hsorted c hcm
    have hval : specIdlePeriods samples = l ++ [(c, lastTime samples)] := by
      unfold specIdlePeriods
      rw [hsc]
      simp [hwc]
    rw [hval]
    constructor
    · refine List.pairwise_append.mpr ⟨i2, by simp, ?_⟩
      intro a ha b hb
      rcases List.mem_singleton.mp hb with rfl
      exact hends a ha
    · intro p hp
      rcases List.mem_append.mp hp with h | h
      · exact ⟨(i1 p h).2.2.1, (i1 p h).1⟩
      · rcases List.mem_singleton.mp h with rfl
        exact ⟨hclast, hwc⟩

theorem C4_intervals_invariants_witness :
    List.Pairwise (fun a b : Nat × Nat => a.2 ≤ b.1) [((32000 : Nat), (33000 : Nat))]
      ∧ ∀ p ∈ [((32000 : Nat), (33000 : Nat))], p.1 ≤ p.2 ∧ inWindow p.1 = true :=
  C4_intervals_invariants c4GoodSamples [(32000, 33000)] (by decide) rfl

/-- C5 counterexample: on the spec's scenario the code's working-window
mileage is 10 (the sum 0 + 5 + 5 over the three in-window rows), not 5, so
the produced summary differs from the claimed one in the mileage field. -/
theorem C5_counterexample_working_mileage :
    processRider c5Samples = Except.ok ⟨15, 0, 0, 10, 20, "Working for the day"⟩
      ∧ processRider c5Samples ≠ Except.ok ⟨15, 0, 0, 5, 20, "Working for the day"⟩ := by
  have h1 : processRider c5Samples
      = Except.ok ⟨15, 0, 0, 10, 20, "Working for the day"⟩ := by
    with_unfolding_all rfl
  refine ⟨h1, ?_⟩
  rw [h1]
  intro hcontr
  injection hcontr with hcontr
  have := congrArg RiderSummary.mileage hcontr
  norm_num at this

/-- C5 amended: on the scenario the code produces exactly one idle interval
08:35-08:50 of duration 15 minutes (excluded from the over-15 bucket),
working-window mileage 10, working-window max speed 20, and status
"Working for the day". -/
theorem C5_scenario_amended :
    processRider c5Samples = Except.ok ⟨15, 0, 0, 10, 20, "Working for the day"⟩
      ∧ idlePeriods c5Samples = Except.ok [(30900, 31800)]
      ∧ durationMinutes (30900, 31800) = 15 :=
  ⟨by with_unfolding_all rfl, rfl, by with_unfolding_all rfl⟩

/-- C6 counterexample: with the required columns present but every Delivery
Date unparseable, mode() is empty and mode()[0] raises (KeyError), so the
code fails instead of falling back to the "unknown_date" sentinel. -/
theorem C6_counterexample_all_unparseable :
    podDeliveryDate true [none, none] = Except.error () := rfl

/-- C6 amended: the report date is the statistical mode of the parsed
Delivery Date values (smallest most-frequent value, as mode()[0] picks); the
"unknown_date" sentinel is produced only when a required column is missing;
if the columns are present but every date is empty or unparseable, the code
raises instead of falling back. -/
theorem C6_report_date_amended (dates : List (Option Nat)) :
    (∀ d : Nat, modeFirst (dates.filterMap id) = some d →
        podDeliveryDate true dates = Except.ok (toString d))
      ∧ podDeliveryDate false dates = Except.ok "unknown_date"
      ∧ (modeFirst (dates.filterMap id) = none →
        podDeliveryDate true dates = Except.error ()) :=
  ⟨fun d hd => by simp [podDeliveryDate, hd],
   by simp [podDeliveryDate],
   fun hn => by simp [podDeliveryDate, hn]⟩

theorem C6_report_date_amended_witness :
    podDeliveryDate true [some 3, none, some 3, some 5] = Except.ok "3"
      ∧ podDeliveryDate false [] = Except.ok "unknown_date"
      ∧ podDeliveryDate true [none] = Except.error () :=
  ⟨(C6_report_date_amended [some 3, none, some 3, some 5]).1 3 (by decide),
   (C6_report_date_amended []).2.1,
   (C6_report_date_amended [none]).2.2 (by decide)⟩

/-- C7: a row whose Time fails to parse becomes NaT (the explicit marker),
but when interval detection runs (working-window mileage nonzero, here 5)
the scan calls row.Time.time() on NaT, which raises and aborts the file's
processing instead of skipping the row and continuing. -/
theorem C7_unparseable_row_aborts :
    processRider c7Samples = Except.error ()
      ∧ totalMileage c7Samples = 5 :=
  ⟨by with_unfolding_all rfl, by with_unfolding_all rfl⟩

/-- C8 counterexample: metadata rows without any "Registration" label, and a
trip table whose header row is present: processing returns successfully with
registration None instead of failing with a RegistrationNotFound error (the
bare except swallows the IndexError from reg_row.iloc[0, 1]). -/
theorem C8_counterexample_swallowed :
    parseTripReport c8Meta ["Driver", "r1", "r2"] = Except.ok none := rfl

/-- C8 amended: a trip report whose metadata never contains the
"Registration" label does not fail: the exception from reading the cell is
swallowed, registration stays None, and processing of the pair continues
(only a missing "Driver" header row aborts it, via the generic handler). -/
theorem C8_missing_registration_continues (meta : List MetaRow) (col0s : List String)
    (hno : ∀ r ∈ meta, containsSub r.col0 "Registration" = false)
    (hdrv : col0s.any (fun c => c == "Driver") = true) :
    parseTripReport meta col0s = Except.ok none := by
  have hfind : meta.find? (fun r => containsSub r.col0 "Registration") = none :=
    List.find?_eq_none.mpr (fun x hx => by simp [hno x hx])
  simp [parseTripReport, extractRegistration, hfind, hdrv]

theorem C8_missing_registration_continues_witness :
    parseTripReport c8Meta ["Driver"] = Except.ok none :=
  C8_missing_registration_continues c8Meta ["Driver"] (by decide) (by decide)

/-- C9: in a fleet-summary row, fuel efficiency equals total mileage divided
by total fuel when total fuel is strictly positive, and is None (not infinity
and not zero) when total fuel is zero, even when mileage is nonzero; no
division by zero is performed. -/
theorem C9_fuel_efficiency_guard (d : String) (a : DriverAgg) :
    (0 < a.fuel → (mkDriverSummary d a).fuelEfficiency = some (a.mileage / a.fuel))
      ∧ (a.fuel = 0 → (mkDriverSummary d a).fuelEfficiency = none) := by
  constructor
  · intro h
    simp [mkDriverSummary, h]
  · intro h
    simp [mkDriverSummary, h]

theorem C9_fuel_efficiency_guard_witness :
    (mkDriverSummary "A" ⟨0, 10, 2⟩).fuelEfficiency = some (10 / 2)
      ∧ (mkDriverSummary "B" ⟨0, 7, 0⟩).fuelEfficiency = none :=
  ⟨(C9_fuel_efficiency_guard "A" ⟨0, 10, 2⟩).1 (by norm_num),
   (C9_fuel_efficiency_guard "B" ⟨0, 7, 0⟩).2 rfl⟩

/-- C10: a registration equal to "GBB933X" with no non-empty trip driver
resolves to "Unknown" through the override table itself, whatever the
end-location text is — the location rules are never consulted. The last
conjunct shows the "Punggol" rule binds "Abdul Rahman", so the "Unknown"
cannot have come from the location rules or the terminal fallback. -/
theorem C10_override_unknown_wins (el : String) :
    assign_driver [("Registration", "GBB933X"), ("TripDriver", ""), ("End Location", el)]
        = "Unknown"
      ∧ override_map.lookup "GBB933X" = some "Unknown"
      ∧ assign_driver [("Registration", "ZZZ111A"), ("TripDriver", ""),
          ("End Location", "Punggol")] = "Abdul Rahman" :=
  ⟨rfl, rfl, rfl⟩

end RiderApp
